import Mathlib

/-!
# Verification of the redisx in-memory key/value server

A shallow embedding of the redisx server core (sharded store, command
router, RESP2 codec, session reply lane) together with proofs about the
properties its specification states.

Modelling conventions:

* `std::chrono::steady_clock::time_point` becomes a `Nat` measured in
  milliseconds; each operation receives the timestamp `now` that the C++
  code obtains from `steady_clock::now()` (or takes as a parameter).
* The three `unordered_map`s of a shard (`map_`, `hmap_`, `ttl_`) become
  functions `Key → Option _`; the field map inside a hash value becomes an
  association list, mirroring insertion/lookup/erasure of the C++ map
  (iteration order of `unordered_map` is unspecified, and no property
  proved here depends on it).
* Operations that the C++ code performs under `std::shared_lock` without
  mutating (hget, hexists, hlen, hgetall, ttl_ms) are embedded as
  functions that return the shard unchanged, making "does not evict"
  an explicit, checkable fact rather than an artefact of purity.
* `Store::shard_for` is a pure function of the key, every keyed shard
  operation touches only its own key, and `sweep_all` sweeps every shard,
  so the whole store is modelled as a single shard holding the whole
  keyspace; every per-key statement transfers verbatim to the sharded
  layout.
* Replies are Lean `String`s built by the same concatenations as
  `resp.cpp`'s emitters.  (`String.length` counts characters where C++
  counts bytes; the two agree on every reply compared in a theorem below,
  all of which are ASCII.)
-/

set_option autoImplicit false

namespace RedisX

abbrev Key := String
abbrev Val := String

/-- `enum class ValueType { None, String, Hash }` from `store.hpp`. -/
inductive ValueType where
  | None
  | String
  | Hash
deriving DecidableEq, Repr

/-- Point update of a map modelled as a function, `m_[k] = v`. -/
def mupd {α : Type} (m : Key → Option α) (k : Key) (v : α) : Key → Option α :=
  fun x => if x = k then some v else m x

/-- Point erasure of a map modelled as a function, `m_.erase(k)`. -/
def mdel {α : Type} (m : Key → Option α) (k : Key) : Key → Option α :=
  fun x => if x = k then none else m x

/-- First-match lookup in the association list embedding of the inner
`unordered_map<string, string>` of a hash value (`hm.find(field)`). -/
def afind : List (Key × Val) → Key → Option Val
  | [], _ => none
  | (g, w) :: rest, f => if g = f then some w else afind rest f

/-- Overwrite the value of an existing field (`it->second = value`). -/
def aset : List (Key × Val) → Key → Val → List (Key × Val)
  | [], _, _ => []
  | (g, w) :: rest, f, v => if g = f then (f, v) :: rest else (g, w) :: aset rest f v

/-- Erase one field, reporting whether an entry was removed
(`kh->second.erase(field) > 0`). -/
def aremove : List (Key × Val) → Key → List (Key × Val) × Bool
  | [], _ => ([], false)
  | (g, w) :: rest, f =>
    if g = f then (rest, true)
    else
      let r := aremove rest f
      ((g, w) :: r.1, r.2)

/-- One shard of the store: the three maps `map_` (strings), `hmap_`
(hashes) and `ttl_` (absolute deadlines) of class `Shard` in `store.hpp`. -/
structure Shard where
  map  : Key → Option Val
  hmap : Key → Option (List (Key × Val))
  ttl  : Key → Option Nat

/-- The shard every run starts from: all three maps empty. -/
def emptyShard : Shard :=
  ⟨fun _ => none, fun _ => none, fun _ => none⟩

/-- `Shard::is_expired_unlocked`: a key is expired when it has a TTL
record whose deadline is `<= now` (C++ `now >= it->second`). -/
def isExpired (st : Shard) (now : Nat) (k : Key) : Bool :=
  match st.ttl k with
  | none => false
  | some tp => decide (tp ≤ now)

/-- Erase a key from all three maps, the eviction performed by the
expired branches of `get`, `hset`, `hdel` and `type_of`. -/
def evict (st : Shard) (k : Key) : Shard :=
  ⟨mdel st.map k, mdel st.hmap k, mdel st.ttl k⟩

/-- `Shard::get` (store.cpp:9): lazily evicts an expired key, then looks
the key up in the string map only. -/
def Shard.get (st : Shard) (now : Nat) (k : Key) : Option Val × Shard :=
  if isExpired st now k then (none, evict st k)
  else (st.map k, st)

/-- `Shard::set` (store.cpp:23): when the key is expired drop its TTL and
hash (the string entry is about to be overwritten anyway), then install
the string and drop any hash at the key.  Note that an unexpired TTL is
left in place. -/
def Shard.set (st : Shard) (now : Nat) (k : Key) (v : Val) : Shard :=
  let st1 :=
    if isExpired st now k then { st with ttl := mdel st.ttl k, hmap := mdel st.hmap k }
    else st
  { st1 with map := mupd st1.map k v, hmap := mdel st1.hmap k }

/-- `Shard::del` (store.cpp:34): erase from all three maps, report whether
the key was present as a string or hash. -/
def Shard.del (st : Shard) (k : Key) : Bool × Shard :=
  ((st.map k).isSome || (st.hmap k).isSome,
   ⟨mdel st.map k, mdel st.hmap k, mdel st.ttl k⟩)

/-- `Shard::set_expire` (store.cpp:44): install/replace the TTL only when
the key exists in the string map or the hash map. -/
def Shard.setExpire (st : Shard) (k : Key) (tp : Nat) : Shard :=
  if (st.map k).isSome || (st.hmap k).isSome then { st with ttl := mupd st.ttl k tp }
  else st

/-- `Shard::ttl_ms` (store.cpp:52): `-2` when the key is in neither map,
`-1` when present without a TTL record, `-2` when the remaining time is
`<= 0`, else the positive remaining milliseconds.  Runs under a shared
lock and never mutates. -/
def Shard.ttlMs (st : Shard) (k : Key) (now : Nat) : Int :=
  if (st.map k).isSome || (st.hmap k).isSome then
    match st.ttl k with
    | none => -1
    | some tp =>
      let remain : Int := (tp : Int) - (now : Int)
      if remain ≤ 0 then -2 else remain
  else -2

/-- `Shard::clear_expire` (store.cpp:63): erase the TTL record only. -/
def Shard.clearExpire (st : Shard) (k : Key) : Shard :=
  { st with ttl := mdel st.ttl k }

/-- `Shard::sweep` (store.cpp:74): remove every key whose recorded
deadline is `<= now` from all three maps.  The C++ two-phase loop
(collect over `ttl_`, then erase) erases exactly the keys satisfying
`is_expired_unlocked` in the pre-state, which is this pointwise map. -/
def Shard.sweep (st : Shard) (now : Nat) : Shard :=
  ⟨fun k => if isExpired st now k then none else st.map k,
   fun k => if isExpired st now k then none else st.hmap k,
   fun k => if isExpired st now k then none else st.ttl k⟩

/-- `Shard::hset` (store.cpp:91): evict if expired (all three maps), then
insert into (or create) the hash; returns 1 when the field is new. -/
def Shard.hset (st : Shard) (now : Nat) (k f v : Key) : Nat × Shard :=
  let st1 := if isExpired st now k then evict st k else st
  let hm := (st1.hmap k).getD []
  match afind hm f with
  | none => (1, { st1 with hmap := mupd st1.hmap k (hm ++ [(f, v)]) })
  | some _ => (0, { st1 with hmap := mupd st1.hmap k (aset hm f v) })

/-- `Shard::hget` (store.cpp:105): shared lock; treats an expired key as
absent but performs no eviction. -/
def Shard.hget (st : Shard) (now : Nat) (k f : Key) : Option Val × Shard :=
  if isExpired st now k then (none, st)
  else
    match st.hmap k with
    | none => (none, st)
    | some hm => (afind hm f, st)

/-- `Shard::hdel` (store.cpp:116): evicts an expired key (returning 0);
otherwise erases the field and, when the hash becomes empty, the hash
entry itself — but never the TTL record. -/
def Shard.hdel (st : Shard) (now : Nat) (k f : Key) : Nat × Shard :=
  if isExpired st now k then (0, evict st k)
  else
    match st.hmap k with
    | none => (0, st)
    | some hm =>
      let r := aremove hm f
      let st2 :=
        if r.1.isEmpty then { st with hmap := mdel st.hmap k }
        else { st with hmap := mupd st.hmap k r.1 }
      (if r.2 then 1 else 0, st2)

/-- `Shard::hexists` (store.cpp:134): shared lock, no mutation. -/
def Shard.hexists (st : Shard) (now : Nat) (k f : Key) : Nat × Shard :=
  if isExpired st now k then (0, st)
  else
    match st.hmap k with
    | none => (0, st)
    | some hm => (if (afind hm f).isSome then 1 else 0, st)

/-- `Shard::hlen` (store.cpp:143): shared lock, no mutation. -/
def Shard.hlen (st : Shard) (now : Nat) (k : Key) : Nat × Shard :=
  if isExpired st now k then (0, st)
  else
    match st.hmap k with
    | none => (0, st)
    | some hm => (hm.length, st)

/-- `Shard::hgetall` (store.cpp:152): shared lock, no mutation; flat
field/value sequence in the (unspecified) iteration order of the map,
here the association-list order. -/
def Shard.hgetall (st : Shard) (now : Nat) (k : Key) : List Val × Shard :=
  if isExpired st now k then ([], st)
  else
    match st.hmap k with
    | none => ([], st)
    | some hm => (hm.foldr (fun p acc => p.1 :: p.2 :: acc) [], st)

/-- `Shard::type_of` (store.cpp:187): lazily evicts an expired key and
reports `None`; otherwise `String` before `Hash` before `None`. -/
def Shard.typeOf (st : Shard) (now : Nat) (k : Key) : ValueType × Shard :=
  if isExpired st now k then (ValueType.None, evict st k)
  else if (st.map k).isSome then (ValueType.String, st)
  else if (st.hmap k).isSome then (ValueType.Hash, st)
  else (ValueType.None, st)

/-! ## Router (router.cpp)

Each handler of the command table becomes a function
`Shard → Nat → List String → String × Shard`: the reply byte string the
C++ handler returns, paired with the shard state after the handler's
mutations.  `dispatch` is `Router::dispatch`.  Of the two `SET` handlers
registered in the source, the later registration (the EX/PX-aware one at
router.cpp:87) overwrites the earlier and is the one embedded. -/

/-- `resp_simple` (resp.cpp:102). -/
def respSimple (s : String) : String := "+" ++ s ++ "\r\n"

/-- `resp_error` (resp.cpp:103). -/
def respError (s : String) : String := "-ERR " ++ s ++ "\r\n"

/-- `resp_bulk` (resp.cpp:105). -/
def respBulk (s : String) : String :=
  "$" ++ toString s.length ++ "\r\n" ++ s ++ "\r\n"

/-- `resp_nil` (resp.cpp:109). -/
def respNil : String := "$-1\r\n"

/-- `resp_int` (resp.cpp:111). -/
def respInt (v : Int) : String := ":" ++ toString v ++ "\r\n"

/-- `resp_array` with `as_bulk = true` (resp.cpp:115). -/
def respArrayS (items : List String) : String :=
  "*" ++ toString items.length ++ "\r\n" ++ String.join (items.map respBulk)

/-- The WRONGTYPE reply (router.cpp:14). -/
def respWrongtype : String :=
  "-WRONGTYPE Operation against a key holding the wrong kind of value\r\n"

/-- `upper` (router.cpp:9): `std::toupper` applied to each character of
the command word (stated over the character list, which is the same
function as `String.map Char.toUpper`). -/
def upper (s : String) : String := String.mk (s.data.map Char.toUpper)

/-- `std::stoll` as used by the EXPIRE/PEXPIRE/SET handlers: skip
whitespace, optional sign, at least one decimal digit (else
`invalid_argument`), stop at the first non-digit, `out_of_range` when the
value does not fit in a signed 64-bit integer.  `none` models a thrown
exception, which every caller turns into an error reply. -/
def stoll? (s : String) : Option Int :=
  let t := s.toList.dropWhile fun c =>
    c = ' ' ∨ c = '\t' ∨ c = '\n' ∨ c = '\x0d' ∨ c = '\x0b' ∨ c = '\x0c'
  let signed : Bool × List Char :=
    match t with
    | '-' :: r => (true, r)
    | '+' :: r => (false, r)
    | _ => (false, t)
  let ds := signed.2.takeWhile Char.isDigit
  if ds.isEmpty then none
  else
    let v : Nat := ds.foldl (fun a c => a * 10 + (c.toNat - 48)) 0
    if signed.1 then if v ≤ 2 ^ 63 then some (-(v : Int)) else none
    else if v ≤ 2 ^ 63 - 1 then some (v : Int) else none

/-- The `EXISTS` loop (router.cpp:159): count keys whose `type_of` is not
`None`, threading the evictions `type_of` performs. -/
def existsLoop : Shard → Nat → List Key → Nat × Shard
  | st, _, [] => (0, st)
  | st, now, k :: ks =>
    let r := Shard.typeOf st now k
    let rest := existsLoop r.2 now ks
    ((if r.1 ≠ ValueType.None then 1 else 0) + rest.1, rest.2)

/-- The `MSET` loop (router.cpp:320): set keys pairwise while two
arguments remain. -/
def msetLoop : Shard → Nat → List String → Shard
  | st, now, k :: v :: rest => msetLoop (Shard.set st now k v) now rest
  | st, _, _ => st

/-- The `HSET` loop (router.cpp:181): set fields pairwise, summing the
newly-created count. -/
def hsetLoop : Shard → Nat → Key → List String → Nat × Shard
  | st, now, k, f :: v :: rest =>
    let r := Shard.hset st now k f v
    let more := hsetLoop r.2 now k rest
    (r.1 + more.1, more.2)
  | st, _, _, _ => (0, st)

/-- The `MGET` type-check pass (router.cpp:281): stop with WRONGTYPE at
the first hash-typed key; `type_of` evictions persist. -/
def mgetCheck : Shard → Nat → List Key → Bool × Shard
  | st, _, [] => (true, st)
  | st, now, k :: ks =>
    let r := Shard.typeOf st now k
    if r.1 = ValueType.Hash then (false, r.2)
    else mgetCheck r.2 now ks

/-- The `MGET` reply-building pass (router.cpp:289): nil or bulk per key. -/
def mgetBody : Shard → Nat → List Key → String × Shard
  | st, _, [] => ("", st)
  | st, now, k :: ks =>
    let r := Shard.get st now k
    let rest := mgetBody r.2 now ks
    ((match r.1 with
      | none => "$-1\r\n"
      | some s => "$" ++ toString s.length ++ "\r\n" ++ s ++ "\r\n") ++ rest.1,
     rest.2)

/-- The `HMGET` reply-building pass (router.cpp:309). -/
def hmgetBody : Shard → Nat → Key → List Key → String × Shard
  | st, _, _, [] => ("", st)
  | st, now, k, f :: fs =>
    let r := Shard.hget st now k f
    let rest := hmgetBody r.2 now k fs
    ((match r.1 with
      | none => "$-1\r\n"
      | some s => "$" ++ toString s.length ++ "\r\n" ++ s ++ "\r\n") ++ rest.1,
     rest.2)

/-- `h_["PING"]` (router.cpp:20). -/
def hPING (st : Shard) (args : List String) : String × Shard :=
  match args with
  | _ :: m :: _ => (respBulk m, st)
  | _ => (respSimple "PONG", st)

/-- `h_["ECHO"]` (router.cpp:25). -/
def hECHO (st : Shard) (args : List String) : String × Shard :=
  match args with
  | _ :: m :: _ => (respBulk m, st)
  | _ => (respError "wrong #args for 'echo'", st)

/-- `h_["SET"]`, the operative EX/PX-aware registration (router.cpp:87).
Extra arguments beyond the fifth are ignored, exactly as `a[3]`/`a[4]`
indexing ignores them. -/
def hSET (st : Shard) (now : Nat) (args : List String) : String × Shard :=
  match args with
  | _ :: k :: v :: rest =>
    match rest with
    | [] => (respSimple "OK", Shard.set st now k v)
    | [_] => (respError "syntax error", st)
    | opt :: num :: _ =>
      let o := upper opt
      if o = "EX" then
        match stoll? num with
        | none => (respError "value is not an integer or out of range", st)
        | some n =>
          let ms := if n * 1000 < 0 then 0 else n * 1000
          let st1 := Shard.set st now k v
          (respSimple "OK", Shard.setExpire st1 k (now + ms.toNat))
      else if o = "PX" then
        match stoll? num with
        | none => (respError "value is not an integer or out of range", st)
        | some n =>
          let ms := if n < 0 then 0 else n
          let st1 := Shard.set st now k v
          (respSimple "OK", Shard.setExpire st1 k (now + ms.toNat))
      else (respError "syntax error", st)
  | _ => (respError "wrong #args for 'set'", st)

/-- `h_["GET"]` (router.cpp:36): WRONGTYPE for a hash, else `get`;
the `type_of` call evicts an expired key before the reply branch. -/
def hGET (st : Shard) (now : Nat) (args : List String) : String × Shard :=
  match args with
  | _ :: k :: _ =>
    let t := Shard.typeOf st now k
    if t.1 = ValueType.Hash then (respWrongtype, t.2)
    else
      let r := Shard.get t.2 now k
      (match r.1 with
       | none => respNil
       | some v => respBulk v, r.2)
  | _ => (respError "wrong #args for 'get'", st)

/-- `h_["DEL"]` (router.cpp:51). -/
def hDEL (st : Shard) (args : List String) : String × Shard :=
  match args with
  | _ :: k :: _ =>
    let r := Shard.del st k
    (respInt (if r.1 then 1 else 0), r.2)
  | _ => (respError "wrong #args for 'del'", st)

/-- `h_["EXPIRE"]` (router.cpp:57): parse seconds, clamp negatives to 0,
check existence via `get` (which only consults the string map), then
`set_expire`. -/
def hEXPIRE (st : Shard) (now : Nat) (args : List String) : String × Shard :=
  match args with
  | _ :: k :: a2 :: _ =>
    match stoll? a2 with
    | none => (respError "value is not an integer or out of range", st)
    | some sec0 =>
      let sec := if sec0 < 0 then 0 else sec0
      let r := Shard.get st now k
      match r.1 with
      | none => (respInt 0, r.2)
      | some _ => (respInt 1, Shard.setExpire r.2 k (now + (sec * 1000).toNat))
  | _ => (respError "wrong number of arguments for 'expire'", st)

/-- `h_["TTL"]` (router.cpp:74): `-2`/`-1` passed through, otherwise the
ceiling of the remaining milliseconds in seconds. -/
def hTTL (st : Shard) (now : Nat) (args : List String) : String × Shard :=
  match args with
  | _ :: k :: _ =>
    let ms := Shard.ttlMs st k now
    if ms = -2 then (respInt (-2), st)
    else if ms = -1 then (respInt (-1), st)
    else (respInt ((ms + 999) / 1000), st)
  | _ => (respError "wrong number of arguments for 'ttl'", st)

/-- `h_["PEXPIRE"]` (router.cpp:126). -/
def hPEXPIRE (st : Shard) (now : Nat) (args : List String) : String × Shard :=
  match args with
  | _ :: k :: a2 :: _ =>
    match stoll? a2 with
    | none => (respError "value is not an integer or out of range", st)
    | some ms0 =>
      let ms := if ms0 < 0 then 0 else ms0
      let r := Shard.get st now k
      match r.1 with
      | none => (respInt 0, r.2)
      | some _ => (respInt 1, Shard.setExpire r.2 k (now + ms.toNat))
  | _ => (respError "wrong #args for 'pexpire'", st)

/-- `h_["PERSIST"]` (router.cpp:141): existence via `get`, then
`clear_expire`. -/
def hPERSIST (st : Shard) (now : Nat) (args : List String) : String × Shard :=
  match args with
  | _ :: k :: _ =>
    let r := Shard.get st now k
    match r.1 with
    | none => (respInt 0, r.2)
    | some _ => (respInt 1, Shard.clearExpire r.2 k)
  | _ => (respError "wrong #args for 'persist'", st)

/-- `h_["EXISTS"]` (router.cpp:155). -/
def hEXISTS (st : Shard) (now : Nat) (args : List String) : String × Shard :=
  match args with
  | _ :: k :: ks =>
    let r := existsLoop st now (k :: ks)
    (respInt r.1, r.2)
  | _ => (respError "wrong #args for 'exists'", st)

/-- `h_["HSET"]` (router.cpp:169): arity and evenness check, WRONGTYPE
when the key currently holds a string, else the pairwise loop. -/
def hHSET (st : Shard) (now : Nat) (args : List String) : String × Shard :=
  if args.length < 4 ∨ (args.length - 2) % 2 ≠ 0 then
    (respError "wrong #args for 'hset'", st)
  else
    match args with
    | _ :: k :: pairs =>
      let t := Shard.typeOf st now k
      if t.1 = ValueType.String then (respWrongtype, t.2)
      else
        let r := hsetLoop t.2 now k pairs
        (respInt r.1, r.2)
    | _ => (respError "wrong #args for 'hset'", st)

/-- `h_["HGET"]` (router.cpp:190). -/
def hHGET (st : Shard) (now : Nat) (args : List String) : String × Shard :=
  match args with
  | _ :: k :: f :: _ =>
    let t := Shard.typeOf st now k
    if t.1 = ValueType.String then (respWrongtype, t.2)
    else
      let r := Shard.hget t.2 now k f
      (match r.1 with
       | none => respNil
       | some v => respBulk v, r.2)
  | _ => (respError "wrong #args for 'hget'", st)

/-- `h_["HDEL"]` (router.cpp:206). -/
def hHDEL (st : Shard) (now : Nat) (args : List String) : String × Shard :=
  match args with
  | _ :: k :: f :: _ =>
    let t := Shard.typeOf st now k
    if t.1 = ValueType.String then (respWrongtype, t.2)
    else
      let r := Shard.hdel t.2 now k f
      (respInt r.1, r.2)
  | _ => (respError "wrong #args for 'hdel'", st)

/-- `h_["HEXISTS"]` (router.cpp:221). -/
def hHEXISTS (st : Shard) (now : Nat) (args : List String) : String × Shard :=
  match args with
  | _ :: k :: f :: _ =>
    let t := Shard.typeOf st now k
    if t.1 = ValueType.String then (respWrongtype, t.2)
    else
      let r := Shard.hexists t.2 now k f
      (respInt r.1, r.2)
  | _ => (respError "wrong #args for 'hexists'", st)

/-- `h_["HLEN"]` (router.cpp:236). -/
def hHLEN (st : Shard) (now : Nat) (args : List String) : String × Shard :=
  match args with
  | _ :: k :: _ =>
    let t := Shard.typeOf st now k
    if t.1 = ValueType.String then (respWrongtype, t.2)
    else
      let r := Shard.hlen t.2 now k
      (respInt r.1, r.2)
  | _ => (respError "wrong #args for 'hlen'", st)

/-- `h_["HGETALL"]` (router.cpp:250). -/
def hHGETALL (st : Shard) (now : Nat) (args : List String) : String × Shard :=
  match args with
  | _ :: k :: _ =>
    let t := Shard.typeOf st now k
    if t.1 = ValueType.String then (respWrongtype, t.2)
    else
      let r := Shard.hgetall t.2 now k
      (respArrayS r.1, r.2)
  | _ => (respError "wrong #args for 'hgetall'", st)

/-- `h_["TYPE"]` (router.cpp:263). -/
def hTYPE (st : Shard) (now : Nat) (args : List String) : String × Shard :=
  match args with
  | _ :: k :: _ =>
    let t := Shard.typeOf st now k
    (match t.1 with
     | ValueType.None => respBulk "none"
     | ValueType.String => respBulk "string"
     | ValueType.Hash => respBulk "hash", t.2)
  | _ => (respError "wrong #args for 'type'", st)

/-- `h_["MGET"]` (router.cpp:276): type-check pass, then reply pass. -/
def hMGET (st : Shard) (now : Nat) (args : List String) : String × Shard :=
  match args with
  | _ :: k :: ks =>
    let c := mgetCheck st now (k :: ks)
    if c.1 then
      let b := mgetBody c.2 now (k :: ks)
      ("*" ++ toString (k :: ks).length ++ "\r\n" ++ b.1, b.2)
    else (respWrongtype, c.2)
  | _ => (respError "wrong #args for 'mget'", st)

/-- `h_["HMGET"]` (router.cpp:299). -/
def hHMGET (st : Shard) (now : Nat) (args : List String) : String × Shard :=
  match args with
  | _ :: k :: f :: fs =>
    let t := Shard.typeOf st now k
    if t.1 = ValueType.String then (respWrongtype, t.2)
    else
      let b := hmgetBody t.2 now k (f :: fs)
      ("*" ++ toString (f :: fs).length ++ "\r\n" ++ b.1, b.2)
  | _ => (respError "wrong #args for 'hmget'", st)

/-- `h_["MSET"]` (router.cpp:318). -/
def hMSET (st : Shard) (now : Nat) (args : List String) : String × Shard :=
  if args.length < 3 ∨ (args.length - 1) % 2 ≠ 0 then
    (respError "wrong #args for 'mset'", st)
  else
    match args with
    | _ :: rest => (respSimple "OK", msetLoop st now rest)
    | _ => (respError "wrong #args for 'mset'", st)

/-- `Router::dispatch` (router.cpp:330): empty frame, table lookup by
the uppercased command word, unknown command. -/
def dispatch (st : Shard) (now : Nat) (args : List String) : String × Shard :=
  match args with
  | [] => (respError "empty", st)
  | cmd :: _ =>
    let c := upper cmd
    if c = "PING" then hPING st args
    else if c = "ECHO" then hECHO st args
    else if c = "SET" then hSET st now args
    else if c = "GET" then hGET st now args
    else if c = "DEL" then hDEL st args
    else if c = "EXPIRE" then hEXPIRE st now args
    else if c = "TTL" then hTTL st now args
    else if c = "PEXPIRE" then hPEXPIRE st now args
    else if c = "PERSIST" then hPERSIST st now args
    else if c = "EXISTS" then hEXISTS st now args
    else if c = "HSET" then hHSET st now args
    else if c = "HGET" then hHGET st now args
    else if c = "HDEL" then hHDEL st now args
    else if c = "HEXISTS" then hHEXISTS st now args
    else if c = "HLEN" then hHLEN st now args
    else if c = "HGETALL" then hHGETALL st now args
    else if c = "TYPE" then hTYPE st now args
    else if c = "MGET" then hMGET st now args
    else if c = "HMGET" then hHMGET st now args
    else if c = "MSET" then hMSET st now args
    else (respError "unknown command", st)

/-! ## Observation view, command sequences -/

/-- The value kind a key observably has: the pure reading of
`Shard::type_of` (expired counts as `None`), without the eviction side
effect. -/
def typeView (st : Shard) (now : Nat) (k : Key) : ValueType :=
  if isExpired st now k then ValueType.None
  else if (st.map k).isSome then ValueType.String
  else if (st.hmap k).isSome then ValueType.Hash
  else ValueType.None

/-- At most one of the string map and the hash map holds the key
(spec §3, invariant 1). -/
def KindsOk (st : Shard) : Prop :=
  ∀ k, st.map k = none ∨ st.hmap k = none

/-- One observable event of the server: a dispatched command frame
(executed at monotonic time `now`) or a sweeper tick
(`Store::sweep_all`). -/
inductive Step where
  | cmd (now : Nat) (args : List String)
  | tick (now : Nat)

/-- Effect of one step on the store. -/
def runStep (st : Shard) : Step → Shard
  | Step.cmd now args => (dispatch st now args).2
  | Step.tick now => Shard.sweep st now

/-- Effect of a finite sequence of steps. -/
def runSteps : Shard → List Step → Shard
  | st, [] => st
  | st, s :: rest => runSteps (runStep st s) rest

/-! ## RESP2 codec (resp.cpp), byte level

The byte buffer is a `List Nat` of byte values (13 = CR, 10 = LF,
42 = `*`, 36 = `$`, 45 = `-`, 48–57 = digits). -/

abbrev Byte := Nat

/-- `std::numeric_limits<long long>::max()`. -/
def llmax : Nat := 2 ^ 63 - 1

/-- The digit loop of `parse_ll` (resp.cpp:17): reject non-digits, detect
signed-64-bit overflow with the same guard (`v > (max - d) / 10`),
accumulate base 10. -/
def digitsAcc : List Byte → Nat → Option Nat
  | [], v => some v
  | c :: rest, v =>
    if 48 ≤ c ∧ c ≤ 57 then
      let d := c - 48
      if v > (llmax - d) / 10 then none
      else digitsAcc rest (v * 10 + d)
    else none

/-- `parse_ll` (resp.cpp:10): empty input fails; a leading `-` sets the
sign; the rest must be digits.  (As in the source, the single string
`"-"` parses as 0.) -/
def parseLL (s : List Byte) : Option Int :=
  match s with
  | [] => none
  | c :: rest =>
    if c = 45 then (digitsAcc rest 0).map (fun v => -(v : Int))
    else (digitsAcc (c :: rest) 0).map (fun v => (v : Int))

/-- `read_line`/`get_line` (resp.cpp:27): split the buffer at the first
CR LF pair, returning the content before it and the bytes after it;
`none` when no complete line is present. -/
def splitCRLF : List Byte → Option (List Byte × List Byte)
  | [] => none
  | [_] => none
  | c1 :: c2 :: rest =>
    if c1 = 13 ∧ c2 = 10 then some ([], rest)
    else (splitCRLF (c2 :: rest)).map fun p => (c1 :: p.1, p.2)

/-- `RespParseResult` (resp.hpp): need-more, a parsed frame with the
bytes consumed, or a protocol error with the bytes to drop. -/
inductive RespOut where
  | needMore
  | frame (args : List (List Byte)) (consumed : Nat)
  | protoError (msg : String) (consumed : Nat)
deriving DecidableEq, Repr

/-- The bulk-string loop of `parse_resp` (resp.cpp:72): `buf` is the
unread suffix, `n` the number of bulks still expected, `off` the
absolute offset of `buf` in the original buffer, `acc` the arguments
parsed so far (reversed). -/
def parseBulks : List Byte → Nat → Nat → List (List Byte) → RespOut
  | _, 0, off, acc => RespOut.frame acc.reverse off
  | buf, n + 1, off, acc =>
    match buf with
    | [] => RespOut.needMore
    | b :: tail =>
      if b ≠ 36 then RespOut.protoError "protocol error: expected bulk string" off
      else
        match splitCRLF tail with
        | none => RespOut.needMore
        | some (line, rest2) =>
          match parseLL line with
          | none => RespOut.protoError "protocol error: bad bulk length" (off + 1 + line.length + 2)
          | some blen =>
            let off2 := off + 1 + line.length + 2
            if blen = -1 then parseBulks rest2 n off2 ([] :: acc)
            else if blen < 0 then RespOut.protoError "protocol error: negative bulk length" off2
            else
              let bl := blen.toNat
              if rest2.length < bl + 2 then RespOut.needMore
              else
                match rest2.drop bl with
                | 13 :: 10 :: rest4 => parseBulks rest4 n (off2 + bl + 2) (rest2.take bl :: acc)
                | _ => RespOut.protoError "protocol error: bulk missing CRLF" (off2 + bl)

/-- `parse_resp` (resp.cpp:50): empty buffer needs more; a first byte
other than `*` is an inline command, rejected with a drop count of 0
(resp.cpp:58); then the array header line and the bulk loop. -/
def parseResp (buf : List Byte) : RespOut :=
  match buf with
  | [] => RespOut.needMore
  | b :: rest =>
    if b ≠ 42 then RespOut.protoError "protocol error: expected array" 0
    else
      match splitCRLF rest with
      | none => RespOut.needMore
      | some (line, body) =>
        match parseLL line with
        | none => RespOut.protoError "protocol error: bad array length" (1 + line.length + 2)
        | some n =>
          if n < 0 then RespOut.protoError "protocol error: bad array length" (1 + line.length + 2)
          else parseBulks body n.toNat (1 + line.length + 2) []

/-- Little-endian decimal digits of `n`; the fuel argument (`n` itself at
the call site) bounds the recursion and is never exhausted first. -/
def decRevAux : Nat → Nat → List Nat
  | 0, _ => []
  | fuel + 1, n => if n = 0 then [] else n % 10 :: decRevAux fuel (n / 10)

/-- Decimal ASCII bytes of `n`, most significant first: the
`ostringstream` rendering of a non-negative length. -/
def natToDec (n : Nat) : List Byte :=
  if n = 0 then [48] else (decRevAux n n).reverse.map (· + 48)

/-- The numeric value of a little-endian digit list (specification
device relating `decRevAux` to the number it renders). -/
def ofDigitsLE : List Nat → Nat
  | [] => 0
  | d :: l => d + 10 * ofDigitsLE l

/-- The numeric value accumulated by reading a big-endian digit list
left to right, as `parse_ll`'s loop does. -/
def bvAcc : List Nat → Nat → Nat
  | [], a => a
  | d :: l, a => bvAcc l (a * 10 + d)

/-- `resp_bulk` at byte level: `$<len>\x0d\x0a<bytes>\x0d\x0a`. -/
def respBulkB (s : List Byte) : List Byte :=
  36 :: (natToDec s.length ++ 13 :: 10 :: (s ++ [13, 10]))

/-- `resp_array` with `as_bulk = true` at byte level (resp.cpp:115):
`*<count>\x0d\x0a` followed by each element as a bulk. -/
def respArrayB (items : List (List Byte)) : List Byte :=
  42 :: (natToDec items.length ++ 13 :: 10 :: (items.map respBulkB).flatten)

/-! ## Session reply lane (session.cpp)

`Session::handle_frame` submits each parsed frame to the worker pool; on
completion the worker posts the reply to the session strand, where
`enqueue_write` appends it to `outq_` and `do_write` drains `outq_` to
the socket front-first.  Nothing records which request a reply answers:
the queue receives replies in pool-completion order, and the socket
receives them in queue order.  The model takes the per-frame replies
(indexed in submission order) and the completion order of the pool as
input; the value is the sequence of replies as written to the socket. -/
def sessionWrites (replies : List String) (completionOrder : List Nat) : List String :=
  completionOrder.filterMap fun i => replies[i]?

/-! ## Helper lemmas -/

theorem isExpired_iff (st : Shard) (now : Nat) (k : Key) :
    isExpired st now k = true ↔ ∃ tp, st.ttl k = some tp ∧ tp ≤ now := by
  unfold isExpired
  cases h : st.ttl k <;> simp

theorem mupd_self {α : Type} (m : Key → Option α) (k : Key) (v : α) :
    mupd m k v k = some v := by simp [mupd]

theorem mupd_other {α : Type} (m : Key → Option α) (k x : Key) (v : α) (h : x ≠ k) :
    mupd m k v x = m x := by simp [mupd, h]

theorem mdel_self {α : Type} (m : Key → Option α) (k : Key) : mdel m k k = none := by
  simp [mdel]

theorem mdel_other {α : Type} (m : Key → Option α) (k x : Key) (h : x ≠ k) :
    mdel m k x = m x := by simp [mdel, h]

theorem hget_snd (st : Shard) (now : Nat) (k f : Key) :
    (Shard.hget st now k f).2 = st := by
  unfold Shard.hget
  split
  · rfl
  · split <;> rfl

theorem hexists_snd (st : Shard) (now : Nat) (k f : Key) :
    (Shard.hexists st now k f).2 = st := by
  unfold Shard.hexists
  split
  · rfl
  · split <;> rfl

theorem hlen_snd (st : Shard) (now : Nat) (k : Key) :
    (Shard.hlen st now k).2 = st := by
  unfold Shard.hlen
  split
  · rfl
  · split <;> rfl

theorem hgetall_snd (st : Shard) (now : Nat) (k : Key) :
    (Shard.hgetall st now k).2 = st := by
  unfold Shard.hgetall
  split
  · rfl
  · split <;> rfl

/-! ## C5: ttl_ms return values -/

/-- C5 (counterexample): the claim says `ttl_ms` returns `0` for a
present key whose deadline has elapsed; at such an input the code
returns `-2` (store.cpp:59). -/
theorem ttlMs_elapsed_counterexample :
    let st : Shard := ⟨fun k => if k = "a" then some "v" else none, fun _ => none,
                       fun k => if k = "a" then some 100 else none⟩
    st.map "a" = some "v" ∧ st.ttl "a" = some 100 ∧
    Shard.ttlMs st "a" 100 = -2 ∧ Shard.ttlMs st "a" 100 ≠ 0 := by
  decide

/-- C5 (amended): `ttl_ms` returns `-2` when the key is absent from both
maps, `-1` when present without a TTL record, `-2` (not `0`) when the
recorded deadline is `<= now`, and the positive remaining milliseconds
otherwise. -/
theorem ttlMs_characterization (st : Shard) (k : Key) (now : Nat) :
    ((st.map k) = none ∧ (st.hmap k) = none → Shard.ttlMs st k now = -2) ∧
    (((st.map k).isSome ∨ (st.hmap k).isSome) → st.ttl k = none →
      Shard.ttlMs st k now = -1) ∧
    (((st.map k).isSome ∨ (st.hmap k).isSome) → ∀ tp, st.ttl k = some tp → tp ≤ now →
      Shard.ttlMs st k now = -2) ∧
    (((st.map k).isSome ∨ (st.hmap k).isSome) → ∀ tp, st.ttl k = some tp → now < tp →
      Shard.ttlMs st k now = (tp : Int) - (now : Int) ∧ 0 < Shard.ttlMs st k now) := by
  unfold Shard.ttlMs
  refine ⟨?_, ?_, ?_, ?_⟩
  · intro ⟨h1, h2⟩
    simp [h1, h2]
  · intro hp ht
    have : ((st.map k).isSome || (st.hmap k).isSome) = true := by
      rcases hp with h | h <;> simp [h]
    simp [this, ht]
  · intro hp tp ht hle
    have : ((st.map k).isSome || (st.hmap k).isSome) = true := by
      rcases hp with h | h <;> simp [h]
    simp [this, ht]
    omega
  · intro hp tp ht hlt
    have hb : ((st.map k).isSome || (st.hmap k).isSome) = true := by
      rcases hp with h | h <;> simp [h]
    simp [hb, ht]
    omega

/-- C5 (witness): the amended theorem applied at concrete inputs — a
present key with an elapsed deadline yields `-2`, an absent key yields
`-2`, and a live deadline yields the remaining time. -/
theorem ttlMs_characterization_witness :
    Shard.ttlMs ⟨fun k => if k = "a" then some "v" else none, fun _ => none,
                 fun k => if k = "a" then some 100 else none⟩ "a" 100 = -2 ∧
    Shard.ttlMs ⟨fun k => if k = "a" then some "v" else none, fun _ => none,
                 fun k => if k = "a" then some 100 else none⟩ "b" 7 = -2 ∧
    Shard.ttlMs ⟨fun k => if k = "a" then some "v" else none, fun _ => none,
                 fun k => if k = "a" then some 100 else none⟩ "a" 60 = 40 := by
  refine ⟨?_, ?_, ?_⟩
  · exact (ttlMs_characterization _ "a" 100).2.2.1 (Or.inl (by decide)) 100 (by decide)
      (by decide)
  · exact (ttlMs_characterization _ "b" 7).1 (by decide)
  · exact ((ttlMs_characterization _ "a" 60).2.2.2 (Or.inl (by decide)) 100 (by decide)
      (by decide)).1

/-! ## C4: lazy eviction on observation -/

/-- C4 (counterexample): the claim says every keyed operation (the pure
observers included) removes an expired key from all three maps before
returning; `hget` on an expired key returns the shard unchanged, with
the key still in the hash map and the TTL map (store.cpp:105-108 takes a
shared lock and erases nothing). -/
theorem observer_no_evict_counterexample :
    let st : Shard := ⟨fun _ => none, fun k => if k = "h" then some [("f", "v")] else none,
                       fun k => if k = "h" then some 100 else none⟩
    isExpired st 200 "h" = true ∧
    (Shard.hget st 200 "h" "f").1 = none ∧
    (Shard.hget st 200 "h" "f").2.hmap "h" = some [("f", "v")] ∧
    (Shard.hget st 200 "h" "f").2.ttl "h" = some 100 := by
  exact ⟨rfl, rfl, rfl, rfl⟩

/-- C4 (amended): for a key whose deadline is `<= now`, the operations
that consult the deadline treat it as absent — the shared-lock observers
`hget`, `hexists`, `hlen`, `hgetall` and `ttl_ms` return their
absent-style result with all three maps untouched; `get`, `type_of` and
`hdel` return the absent-style result and evict it from all three maps;
`sweep` removes it from all three maps; and `set`/`hset` drop the stale
TTL (with the old value) before installing.  The exceptions are `del`
and `set_expire`, which never consult the deadline (store.cpp:34-40,
44-50): `del` reports an expired-but-unevicted key as present, and
`set_expire` installs a TTL on one. -/
theorem expired_key_observation (st : Shard) (now : Nat) (k f : Key)
    (h : isExpired st now k = true) :
    Shard.hget st now k f = (none, st) ∧
    Shard.hexists st now k f = (0, st) ∧
    Shard.hlen st now k = (0, st) ∧
    Shard.hgetall st now k = ([], st) ∧
    Shard.ttlMs st k now = -2 ∧
    Shard.get st now k = (none, evict st k) ∧
    Shard.typeOf st now k = (ValueType.None, evict st k) ∧
    Shard.hdel st now k f = (0, evict st k) ∧
    (Shard.sweep st now).map k = none ∧
    (Shard.sweep st now).hmap k = none ∧
    (Shard.sweep st now).ttl k = none ∧
    (∀ v, (Shard.set st now k v).ttl k = none) ∧
    (∀ g w, (Shard.hset st now k g w).2.ttl k = none) ∧
    ((st.map k).isSome ∨ (st.hmap k).isSome → (Shard.del st k).1 = true) ∧
    (∀ tp, (st.map k).isSome ∨ (st.hmap k).isSome →
      (Shard.setExpire st k tp).ttl k = some tp) := by
  obtain ⟨tp, htp, hle⟩ := (isExpired_iff st now k).mp h
  refine ⟨?_, ?_, ?_, ?_, ?_, ?_, ?_, ?_, ?_, ?_, ?_, ?_, ?_, ?_, ?_⟩
  · simp [Shard.hget, h]
  · simp [Shard.hexists, h]
  · simp [Shard.hlen, h]
  · simp [Shard.hgetall, h]
  · unfold Shard.ttlMs
    split
    · simp [htp]
      omega
    · rfl
  · simp [Shard.get, h]
  · simp [Shard.typeOf, h]
  · simp [Shard.hdel, h]
  · simp [Shard.sweep, h]
  · simp [Shard.sweep, h]
  · simp [Shard.sweep, h]
  · intro v
    simp [Shard.set, h, mdel]
  · intro g w
    unfold Shard.hset
    simp only [h, if_true]
    split <;> simp [evict, mdel, afind]
  · intro hp
    rcases hp with hp | hp <;> simp [Shard.del, hp]
  · intro tp2 hp
    have hb : ((st.map k).isSome || (st.hmap k).isSome) = true := by
      rcases hp with hp | hp <;> simp [hp]
    simp [Shard.setExpire, hb, mupd]

/-- C4 (witness): the amended theorem at a concrete expired hash key —
the observer leaves the state untouched, ttl_ms reports -2, while `del`
replies present and `set_expire` installs a fresh TTL. -/
theorem expired_key_observation_witness :
    Shard.hget ⟨fun _ => none, fun k => if k = "h" then some [("f", "v")] else none,
                fun k => if k = "h" then some 100 else none⟩ 200 "h" "f" =
      (none, ⟨fun _ => none, fun k => if k = "h" then some [("f", "v")] else none,
              fun k => if k = "h" then some 100 else none⟩) ∧
    Shard.ttlMs ⟨fun _ => none, fun k => if k = "h" then some [("f", "v")] else none,
                 fun k => if k = "h" then some 100 else none⟩ "h" 200 = -2 ∧
    (Shard.del ⟨fun _ => none, fun k => if k = "h" then some [("f", "v")] else none,
                fun k => if k = "h" then some 100 else none⟩ "h").1 = true ∧
    (Shard.setExpire ⟨fun _ => none, fun k => if k = "h" then some [("f", "v")] else none,
                      fun k => if k = "h" then some 100 else none⟩ "h" 999).ttl "h" =
      some 999 := by
  refine ⟨?_, ?_, ?_, ?_⟩
  · exact (expired_key_observation _ 200 "h" "f" (by decide)).1
  · exact (expired_key_observation _ 200 "h" "f" (by decide)).2.2.2.2.1
  · exact (expired_key_observation _ 200 "h" "f"
      (by decide)).2.2.2.2.2.2.2.2.2.2.2.2.2.1 (Or.inr (by decide))
  · exact (expired_key_observation _ 200 "h" "f"
      (by decide)).2.2.2.2.2.2.2.2.2.2.2.2.2.2 999 (Or.inr (by decide))

/-! ## C1: SET without EX/PX -/

/-- C1 (counterexample): the claim says `SET k v` with no TTL option
removes any existing TTL, so `TTL k` then replies `:-1`.  On a key
holding an unexpired value with a TTL, `Shard::set` erases the TTL only
in its expired branch (store.cpp:26-29), so the old deadline survives
and `TTL` reports the remaining time. -/
theorem set_clears_ttl_counterexample :
    let st : Shard := ⟨fun k => if k = "a" then some "old" else none, fun _ => none,
                       fun k => if k = "a" then some 100000 else none⟩
    let st1 := (dispatch st 50 ["SET", "a", "new"]).2
    st1.map "a" = some "new" ∧ st1.ttl "a" = some 100000 ∧
    (dispatch st1 50 ["TTL", "a"]).1 = ":100\r\n" ∧
    (dispatch st1 50 ["TTL", "a"]).1 ≠ ":-1\r\n" := by
  decide

/-- C1 (amended): `SET k v` with no EX/PX option installs the string at
`k` and drops any pre-existing hash, but removes an existing TTL only
when the key was already expired; an unexpired TTL is preserved, and
`TTL k` afterwards replies the remaining time (ceiling seconds), not
`:-1`. -/
theorem set_no_ttl_behavior (st : Shard) (now : Nat) (k : Key) (v : Val) :
    (dispatch st now ["SET", k, v]).1 = respSimple "OK" ∧
    (dispatch st now ["SET", k, v]).2.map k = some v ∧
    (dispatch st now ["SET", k, v]).2.hmap k = none ∧
    (dispatch st now ["SET", k, v]).2.ttl k =
      (if isExpired st now k then none else st.ttl k) ∧
    (∀ tp, st.ttl k = some tp → now < tp →
      (dispatch (dispatch st now ["SET", k, v]).2 now ["TTL", k]).1 =
        respInt (((tp : Int) - (now : Int) + 999) / 1000)) := by
  have hd : dispatch st now ["SET", k, v] = (respSimple "OK", Shard.set st now k v) := rfl
  rw [hd]
  refine ⟨rfl, ?_, ?_, ?_, ?_⟩
  · unfold Shard.set
    split <;> simp [mupd]
  · unfold Shard.set
    split <;> simp [mdel]
  · unfold Shard.set
    split <;> simp [mdel]
  · intro tp htp hlt
    have hexp : isExpired st now k = false := by
      unfold isExpired
      rw [htp]
      simp
      omega
    have hm : (Shard.set st now k v).map k = some v := by
      unfold Shard.set
      simp [hexp, mupd]
    have ht : (Shard.set st now k v).ttl k = some tp := by
      unfold Shard.set
      simp [hexp, htp]
    have hd2 : dispatch (Shard.set st now k v) now ["TTL", k] =
        hTTL (Shard.set st now k v) now ["TTL", k] := rfl
    have hms : Shard.ttlMs (Shard.set st now k v) k now = (tp : Int) - (now : Int) := by
      unfold Shard.ttlMs
      rw [ht]
      simp [hm]
      omega
    have h2 : Shard.ttlMs (Shard.set st now k v) k now ≠ -2 := by
      rw [hms]; omega
    have h1 : Shard.ttlMs (Shard.set st now k v) k now ≠ -1 := by
      rw [hms]; omega
    rw [hd2]
    unfold hTTL
    simp only [hms, h2, h1, if_false]
    rw [if_neg (by omega), if_neg (by omega)]

/-- C1 (witness): the amended theorem applied at the concrete state of
the counterexample: TTL 100000 ms survives `SET` at `now = 50` and
`TTL` replies the 100-second ceiling. -/
theorem set_no_ttl_behavior_witness :
    (dispatch (Shard.mk (fun k => if k = "a" then some "old" else none) (fun _ => none)
        (fun k => if k = "a" then some 100000 else none)) 50 ["SET", "a", "new"]).2.ttl "a" =
      some 100000 ∧
    (dispatch (dispatch (Shard.mk (fun k => if k = "a" then some "old" else none)
        (fun _ => none) (fun k => if k = "a" then some 100000 else none)) 50
        ["SET", "a", "new"]).2 50 ["TTL", "a"]).1 = respInt 100 := by
  refine ⟨?_, ?_⟩
  · have := (set_no_ttl_behavior (Shard.mk (fun k => if k = "a" then some "old" else none)
      (fun _ => none) (fun k => if k = "a" then some 100000 else none)) 50 "a" "new").2.2.2.1
    rw [this]
    decide
  · have := (set_no_ttl_behavior (Shard.mk (fun k => if k = "a" then some "old" else none)
      (fun _ => none) (fun k => if k = "a" then some 100000 else none)) 50 "a" "new").2.2.2.2
      100000 (by decide) (by decide)
    rw [this]
    decide

/-! ## C2: EXPIRE / PEXPIRE / PERSIST on a hash key -/

/-- C2 (code bug): the spec says `EXPIRE`/`PEXPIRE`/`PERSIST` reply `:0`
only when the key is absent, and `Shard::set_expire` itself supports
hash keys (store.cpp:47).  But the router handlers check existence via
`Shard::get` (router.cpp:67, "check existence by get"), which consults
the string map only, so all three reply `:0` on an existing, unexpired
hash key and never install/remove its TTL. -/
theorem expire_hash_key_replies_zero :
    (dispatch emptyShard 0 ["HSET", "h", "f", "v"]).2.hmap "h" = some [("f", "v")] ∧
    (dispatch emptyShard 0 ["HSET", "h", "f", "v"]).2.map "h" = none ∧
    typeView (dispatch emptyShard 0 ["HSET", "h", "f", "v"]).2 0 "h" = ValueType.Hash ∧
    (dispatch (dispatch emptyShard 0 ["HSET", "h", "f", "v"]).2 0
      ["EXPIRE", "h", "5"]).1 = ":0\r\n" ∧
    (dispatch (dispatch emptyShard 0 ["HSET", "h", "f", "v"]).2 0
      ["EXPIRE", "h", "5"]).2.ttl "h" = none ∧
    (dispatch (dispatch emptyShard 0 ["HSET", "h", "f", "v"]).2 0
      ["PEXPIRE", "h", "5000"]).1 = ":0\r\n" ∧
    (dispatch (dispatch emptyShard 0 ["HSET", "h", "f", "v"]).2 0
      ["PERSIST", "h"]).1 = ":0\r\n" ∧
    (Shard.setExpire (dispatch emptyShard 0 ["HSET", "h", "f", "v"]).2
      "h" 5000).ttl "h" = some 5000 := by
  decide

/-! ## C3: HDEL of the last field and the TTL record -/

/-- C3 (counterexample): deleting the only field of a TTL-carrying hash
erases the hash entry but leaves the TTL record in place
(store.cpp:116-132 never touches `ttl_` in the unexpired path), and an
`HSET` before the stale deadline re-creates the key with the old TTL
attached. -/
theorem hdel_keeps_ttl_counterexample :
    let st : Shard := ⟨fun _ => none, fun k => if k = "h" then some [("f", "v")] else none,
                       fun k => if k = "h" then some 1000 else none⟩
    let r := Shard.hdel st 10 "h" "f"
    r.1 = 1 ∧ r.2.hmap "h" = none ∧ r.2.map "h" = none ∧
    r.2.ttl "h" = some 1000 ∧
    (Shard.hset r.2 20 "h" "g" "w").2.ttl "h" = some 1000 ∧
    (Shard.hset r.2 20 "h" "g" "w").2.hmap "h" = some [("g", "w")] := by
  decide

/-- C3 (amended): after `hdel` removes the last remaining field of an
unexpired hash, the hash entry is erased but the shard's `ttls` map
still contains the key; a later `HSET` issued before the stale deadline
re-creates the key with that TTL still attached. -/
theorem hdel_last_field_behavior (st : Shard) (now : Nat) (k f : Key)
    (hm : List (Key × Val)) (hexp : isExpired st now k = false)
    (hh : st.hmap k = some hm) (hrem : aremove hm f = ([], true)) :
    (Shard.hdel st now k f).1 = 1 ∧
    (Shard.hdel st now k f).2.hmap k = none ∧
    (Shard.hdel st now k f).2.ttl k = st.ttl k ∧
    (∀ now2 g w, isExpired (Shard.hdel st now k f).2 now2 k = false →
      (Shard.hset (Shard.hdel st now k f).2 now2 k g w).2.ttl k = st.ttl k) := by
  have hr : Shard.hdel st now k f = (1, { st with hmap := mdel st.hmap k }) := by
    unfold Shard.hdel
    simp [hexp, hh, hrem]
  rw [hr]
  refine ⟨rfl, by simp [mdel], rfl, ?_⟩
  intro now2 g w hexp2
  unfold Shard.hset
  simp only at hexp2
  simp [hexp2, mdel]
  split <;> rfl

/-- C3 (witness): the amended theorem at the concrete one-field hash
with TTL 1000 at time 10. -/
theorem hdel_last_field_behavior_witness :
    (Shard.hdel (Shard.mk (fun _ => none)
        (fun k => if k = "h" then some [("f", "v")] else none)
        (fun k => if k = "h" then some 1000 else none)) 10 "h" "f").2.ttl "h" =
      some 1000 := by
  have := (hdel_last_field_behavior (Shard.mk (fun _ => none)
      (fun k => if k = "h" then some [("f", "v")] else none)
      (fun k => if k = "h" then some 1000 else none)) 10 "h" "f" [("f", "v")]
      (by decide) (by decide) (by decide)).2.2.1
  rw [this]
  decide

/-! ## C10: EXISTS counts argument positions -/

theorem typeOf_fst (st : Shard) (now : Nat) (k : Key) :
    (Shard.typeOf st now k).1 = typeView st now k := by
  unfold Shard.typeOf typeView
  split
  · rfl
  · split
    · rfl
    · split <;> rfl

theorem typeView_typeOf_snd (st : Shard) (now : Nat) (k k' : Key) :
    typeView (Shard.typeOf st now k).2 now k' = typeView st now k' := by
  unfold Shard.typeOf
  split
  · rename_i hexp
    by_cases hk : k' = k
    · subst hk
      have h1 : isExpired (evict st k') now k' = false := by
        simp [isExpired, evict, mdel]
      simp [typeView, h1, hexp, evict, mdel]
    · have h1 : isExpired ⟨mdel st.map k, mdel st.hmap k, mdel st.ttl k⟩ now k' =
          isExpired st now k' := by
        simp [isExpired, mdel, hk]
      simp [typeView, evict, h1, mdel, hk]
  · split
    · rfl
    · split <;> rfl

theorem existsLoop_count (st : Shard) (now : Nat) (ks : List Key) :
    (existsLoop st now ks).1 =
      ks.countP fun x => decide (typeView st now x ≠ ValueType.None) := by
  induction ks generalizing st with
  | nil => simp [existsLoop]
  | cons k ks ih =>
    have h2 := typeView_typeOf_snd st now k
    simp only [existsLoop, ih, List.countP_cons, typeOf_fst, h2]
    by_cases hp : typeView st now k ≠ ValueType.None
    · simp [hp, Nat.add_comm]
    · simp at hp
      simp [hp]

/-- C10: the `EXISTS` reply is the count of argument positions whose key
observably has a non-`None` type at dispatch time — each occurrence of a
repeated key is counted independently (router.cpp:159 loops over every
argument). -/
theorem exists_counts_each_position (st : Shard) (now : Nat) (k : Key) (ks : List Key) :
    (dispatch st now ("EXISTS" :: k :: ks)).1 =
      respInt ((k :: ks).countP fun x => decide (typeView st now x ≠ ValueType.None)) := by
  have hd : dispatch st now ("EXISTS" :: k :: ks) = hEXISTS st now ("EXISTS" :: k :: ks) := rfl
  rw [hd]
  unfold hEXISTS
  simp only [existsLoop_count]

/-! ## C8: at most one value kind per key -/

theorem kindsOk_empty : KindsOk emptyShard := fun _ => Or.inl rfl

theorem kindsOk_evict (st : Shard) (k : Key) (h : KindsOk st) : KindsOk (evict st k) := by
  intro x
  by_cases hx : x = k
  · subst hx
    exact Or.inl (by simp [evict, mdel])
  · have := h x
    simpa [evict, mdel, hx] using this

theorem kindsOk_set (st : Shard) (now : Nat) (k : Key) (v : Val) (h : KindsOk st) :
    KindsOk (Shard.set st now k v) := by
  unfold Shard.set
  intro x
  by_cases hx : x = k
  · subst hx
    right
    split <;> simp [mdel]
  · split <;> simp only [mupd, mdel, if_neg hx] <;> exact h x

theorem kindsOk_del (st : Shard) (k : Key) (h : KindsOk st) : KindsOk (Shard.del st k).2 := by
  intro x
  by_cases hx : x = k
  · subst hx
    exact Or.inl (by simp [Shard.del, mdel])
  · have := h x
    simpa [Shard.del, mdel, hx] using this

theorem kindsOk_setExpire (st : Shard) (k : Key) (tp : Nat) (h : KindsOk st) :
    KindsOk (Shard.setExpire st k tp) := by
  unfold Shard.setExpire
  split <;> exact h

theorem kindsOk_clearExpire (st : Shard) (k : Key) (h : KindsOk st) :
    KindsOk (Shard.clearExpire st k) := h

theorem kindsOk_sweep (st : Shard) (now : Nat) (h : KindsOk st) :
    KindsOk (Shard.sweep st now) := by
  intro x
  rcases h x with hm | hh
  · exact Or.inl (by simp [Shard.sweep, hm])
  · exact Or.inr (by simp [Shard.sweep, hh])

theorem kindsOk_get_snd (st : Shard) (now : Nat) (k : Key) (h : KindsOk st) :
    KindsOk (Shard.get st now k).2 := by
  unfold Shard.get
  split
  · exact kindsOk_evict st k h
  · exact h

theorem kindsOk_typeOf_snd (st : Shard) (now : Nat) (k : Key) (h : KindsOk st) :
    KindsOk (Shard.typeOf st now k).2 := by
  unfold Shard.typeOf
  split
  · exact kindsOk_evict st k h
  · split
    · exact h
    · split <;> exact h

theorem kindsOk_hdel_snd (st : Shard) (now : Nat) (k f : Key) (h : KindsOk st) :
    KindsOk (Shard.hdel st now k f).2 := by
  unfold Shard.hdel
  split
  · exact kindsOk_evict st k h
  · split
    · exact h
    · rename_i hm hsome
      dsimp only
      cases he : (aremove hm f).1.isEmpty with
      | true =>
        simp only [he, if_true]
        intro x
        by_cases hx : x = k
        · subst hx
          exact Or.inr (by simp [mdel])
        · have := h x
          simpa [mdel, hx] using this
      | false =>
        simp only [he, Bool.false_eq_true, if_false]
        intro x
        by_cases hx : x = k
        · subst hx
          rcases h x with hl | hr
          · exact Or.inl hl
          · rw [hsome] at hr
            cases hr
        · have := h x
          simpa [mupd, hx] using this

theorem typeOf_not_string_map_none (st : Shard) (now : Nat) (k : Key)
    (h : (Shard.typeOf st now k).1 ≠ ValueType.String) :
    (Shard.typeOf st now k).2.map k = none := by
  unfold Shard.typeOf at h ⊢
  cases hexp : isExpired st now k with
  | true =>
    simp only [hexp, if_true]
    simp [evict, mdel]
  | false =>
    simp only [hexp, Bool.false_eq_true, if_false] at h ⊢
    cases hms : (st.map k).isSome with
    | true =>
      simp [hms] at h
    | false =>
      have hmn : st.map k = none := by
        cases hmk : st.map k
        · rfl
        · rw [hmk] at hms
          cases hms
      simp only [hms, Bool.false_eq_true, if_false]
      split <;> exact hmn

theorem hset_kinds (st : Shard) (now : Nat) (k f w : Key) (hmn : st.map k = none)
    (h : KindsOk st) :
    (Shard.hset st now k f w).2.map k = none ∧ KindsOk (Shard.hset st now k f w).2 := by
  have key : ∀ st1 : Shard, st1.map k = none → KindsOk st1 →
      ∀ hm2 : List (Key × Val),
        ({ st1 with hmap := mupd st1.hmap k hm2 } : Shard).map k = none ∧
        KindsOk { st1 with hmap := mupd st1.hmap k hm2 } := by
    intro st1 h1 h2 hm2
    refine ⟨h1, ?_⟩
    intro x
    by_cases hx : x = k
    · subst hx
      exact Or.inl h1
    · rcases h2 x with hl | hr
      · exact Or.inl hl
      · right
        simpa [mupd, hx] using hr
  unfold Shard.hset
  cases hexp : isExpired st now k with
  | true =>
    simp only [hexp, if_true]
    have h1 : (evict st k).map k = none := by simp [evict, mdel]
    have h2 : KindsOk (evict st k) := kindsOk_evict st k h
    split <;> exact key _ h1 h2 _
  | false =>
    simp only [hexp, Bool.false_eq_true, if_false]
    split <;> exact key _ hmn h _

theorem hsetLoop_kinds : ∀ (l : List String) (st : Shard) (now : Nat) (k : Key),
    st.map k = none → KindsOk st →
    (hsetLoop st now k l).2.map k = none ∧ KindsOk (hsetLoop st now k l).2
  | [], _, _, _, h1, h2 => ⟨h1, h2⟩
  | [_], _, _, _, h1, h2 => ⟨h1, h2⟩
  | f :: w :: r, st, now, k, h1, h2 => by
    have hh := hset_kinds st now k f w h1 h2
    have ih := hsetLoop_kinds r (Shard.hset st now k f w).2 now k hh.1 hh.2
    simpa [hsetLoop] using ih

theorem msetLoop_kinds : ∀ (l : List String) (st : Shard) (now : Nat),
    KindsOk st → KindsOk (msetLoop st now l)
  | [], _, _, h => h
  | [_], _, _, h => h
  | k :: v :: r, st, now, h => msetLoop_kinds r _ now (kindsOk_set st now k v h)

theorem existsLoop_kinds : ∀ (l : List Key) (st : Shard) (now : Nat),
    KindsOk st → KindsOk (existsLoop st now l).2
  | [], _, _, h => h
  | k :: r, st, now, h => existsLoop_kinds r _ now (kindsOk_typeOf_snd st now k h)

theorem mgetCheck_kinds : ∀ (l : List Key) (st : Shard) (now : Nat),
    KindsOk st → KindsOk (mgetCheck st now l).2
  | [], _, _, h => h
  | k :: r, st, now, h => by
    unfold mgetCheck
    dsimp only
    split
    · exact kindsOk_typeOf_snd st now k h
    · exact mgetCheck_kinds r _ now (kindsOk_typeOf_snd st now k h)

theorem mgetBody_kinds : ∀ (l : List Key) (st : Shard) (now : Nat),
    KindsOk st → KindsOk (mgetBody st now l).2
  | [], _, _, h => h
  | k :: r, st, now, h => mgetBody_kinds r _ now (kindsOk_get_snd st now k h)

theorem hmgetBody_snd : ∀ (l : List Key) (st : Shard) (now : Nat) (k : Key),
    (hmgetBody st now k l).2 = st
  | [], _, _, _ => rfl
  | f :: r, st, now, k => by
    have ih := hmgetBody_snd r (Shard.hget st now k f).2 now k
    simpa [hmgetBody, hget_snd] using ih

theorem hPING_kinds (st : Shard) (args : List String) (h : KindsOk st) :
    KindsOk (hPING st args).2 := by
  unfold hPING
  split <;> exact h

theorem hECHO_kinds (st : Shard) (args : List String) (h : KindsOk st) :
    KindsOk (hECHO st args).2 := by
  unfold hECHO
  split <;> exact h

theorem hSET_kinds (st : Shard) (now : Nat) (args : List String) (h : KindsOk st) :
    KindsOk (hSET st now args).2 := by
  unfold hSET
  split
  · rename_i a k v rest
    split
    · exact kindsOk_set st now k v h
    · exact h
    · dsimp only
      split_ifs
      · split
        · exact h
        · exact kindsOk_setExpire _ _ _ (kindsOk_set st now k v h)
      · split
        · exact h
        · exact kindsOk_setExpire _ _ _ (kindsOk_set st now k v h)
      · exact h
  · exact h

theorem hGET_kinds (st : Shard) (now : Nat) (args : List String) (h : KindsOk st) :
    KindsOk (hGET st now args).2 := by
  unfold hGET
  dsimp only
  split
  · rename_i a k rest
    split
    · exact kindsOk_typeOf_snd st now k h
    · exact kindsOk_get_snd _ now k (kindsOk_typeOf_snd st now k h)
  · exact h

theorem hDEL_kinds (st : Shard) (args : List String) (h : KindsOk st) :
    KindsOk (hDEL st args).2 := by
  unfold hDEL
  dsimp only
  split
  · rename_i a k rest
    exact kindsOk_del st k h
  · exact h

theorem hEXPIRE_kinds (st : Shard) (now : Nat) (args : List String) (h : KindsOk st) :
    KindsOk (hEXPIRE st now args).2 := by
  unfold hEXPIRE
  dsimp only
  split
  · rename_i a k a2 rest
    split
    · exact h
    · split
      · exact kindsOk_get_snd st now k h
      · exact kindsOk_setExpire _ _ _ (kindsOk_get_snd st now k h)
  · exact h

theorem hTTL_kinds (st : Shard) (now : Nat) (args : List String) (h : KindsOk st) :
    KindsOk (hTTL st now args).2 := by
  unfold hTTL
  dsimp only
  split
  · rename_i a k rest
    split
    · exact h
    · split <;> exact h
  · exact h

theorem hPEXPIRE_kinds (st : Shard) (now : Nat) (args : List String) (h : KindsOk st) :
    KindsOk (hPEXPIRE st now args).2 := by
  unfold hPEXPIRE
  dsimp only
  split
  · rename_i a k a2 rest
    split
    · exact h
    · split
      · exact kindsOk_get_snd st now k h
      · exact kindsOk_setExpire _ _ _ (kindsOk_get_snd st now k h)
  · exact h

theorem hPERSIST_kinds (st : Shard) (now : Nat) (args : List String) (h : KindsOk st) :
    KindsOk (hPERSIST st now args).2 := by
  unfold hPERSIST
  dsimp only
  split
  · rename_i a k rest
    split
    · exact kindsOk_get_snd st now k h
    · exact kindsOk_clearExpire _ k (kindsOk_get_snd st now k h)
  · exact h

theorem hEXISTS_kinds (st : Shard) (now : Nat) (args : List String) (h : KindsOk st) :
    KindsOk (hEXISTS st now args).2 := by
  unfold hEXISTS
  dsimp only
  split
  · rename_i a k ks
    exact existsLoop_kinds (k :: ks) st now h
  · exact h

theorem hHSET_kinds (st : Shard) (now : Nat) (args : List String) (h : KindsOk st) :
    KindsOk (hHSET st now args).2 := by
  unfold hHSET
  split
  · exact h
  · match args with
    | [] => exact h
    | [_] => exact h
    | _ :: k :: pairs =>
      dsimp only
      split
      · exact kindsOk_typeOf_snd st now k h
      · rename_i hns
        exact (hsetLoop_kinds pairs (Shard.typeOf st now k).2 now k
          (typeOf_not_string_map_none st now k hns)
          (kindsOk_typeOf_snd st now k h)).2

theorem hHGET_kinds (st : Shard) (now : Nat) (args : List String) (h : KindsOk st) :
    KindsOk (hHGET st now args).2 := by
  unfold hHGET
  dsimp only
  split
  · rename_i a k f rest
    split
    · exact kindsOk_typeOf_snd st now k h
    · rw [hget_snd]
      exact kindsOk_typeOf_snd st now k h
  · exact h

theorem hHDEL_kinds (st : Shard) (now : Nat) (args : List String) (h : KindsOk st) :
    KindsOk (hHDEL st now args).2 := by
  unfold hHDEL
  dsimp only
  split
  · rename_i a k f rest
    split
    · exact kindsOk_typeOf_snd st now k h
    · exact kindsOk_hdel_snd _ now k f (kindsOk_typeOf_snd st now k h)
  · exact h

theorem hHEXISTS_kinds (st : Shard) (now : Nat) (args : List String) (h : KindsOk st) :
    KindsOk (hHEXISTS st now args).2 := by
  unfold hHEXISTS
  dsimp only
  split
  · rename_i a k f rest
    split
    · exact kindsOk_typeOf_snd st now k h
    · rw [hexists_snd]
      exact kindsOk_typeOf_snd st now k h
  · exact h

theorem hHLEN_kinds (st : Shard) (now : Nat) (args : List String) (h : KindsOk st) :
    KindsOk (hHLEN st now args).2 := by
  unfold hHLEN
  dsimp only
  split
  · rename_i a k rest
    split
    · exact kindsOk_typeOf_snd st now k h
    · rw [hlen_snd]
      exact kindsOk_typeOf_snd st now k h
  · exact h

theorem hHGETALL_kinds (st : Shard) (now : Nat) (args : List String) (h : KindsOk st) :
    KindsOk (hHGETALL st now args).2 := by
  unfold hHGETALL
  dsimp only
  split
  · rename_i a k rest
    split
    · exact kindsOk_typeOf_snd st now k h
    · rw [hgetall_snd]
      exact kindsOk_typeOf_snd st now k h
  · exact h

theorem hTYPE_kinds (st : Shard) (now : Nat) (args : List String) (h : KindsOk st) :
    KindsOk (hTYPE st now args).2 := by
  unfold hTYPE
  dsimp only
  split
  · rename_i a k rest
    exact kindsOk_typeOf_snd st now k h
  · exact h

theorem hMGET_kinds (st : Shard) (now : Nat) (args : List String) (h : KindsOk st) :
    KindsOk (hMGET st now args).2 := by
  unfold hMGET
  dsimp only
  split
  · rename_i a k ks
    split
    · exact mgetBody_kinds (k :: ks) _ now (mgetCheck_kinds (k :: ks) st now h)
    · exact mgetCheck_kinds (k :: ks) st now h
  · exact h

theorem hHMGET_kinds (st : Shard) (now : Nat) (args : List String) (h : KindsOk st) :
    KindsOk (hHMGET st now args).2 := by
  unfold hHMGET
  dsimp only
  split
  · rename_i a k f fs
    split
    · exact kindsOk_typeOf_snd st now k h
    · rw [hmgetBody_snd]
      exact kindsOk_typeOf_snd st now k h
  · exact h

theorem hMSET_kinds (st : Shard) (now : Nat) (args : List String) (h : KindsOk st) :
    KindsOk (hMSET st now args).2 := by
  unfold hMSET
  split
  · exact h
  · match args with
    | [] => exact h
    | a :: rest => exact msetLoop_kinds rest st now h

set_option maxHeartbeats 2000000 in
theorem dispatch_kinds (st : Shard) (now : Nat) (args : List String) (h : KindsOk st) :
    KindsOk (dispatch st now args).2 := by
  unfold dispatch
  match args with
  | [] => exact h
  | cmd :: rest =>
    dsimp only
    by_cases hc0 : upper cmd = "PING"
    · rw [if_pos hc0]
      exact hPING_kinds st _ h
    rw [if_neg hc0]
    by_cases hc1 : upper cmd = "ECHO"
    · rw [if_pos hc1]
      exact hECHO_kinds st _ h
    rw [if_neg hc1]
    by_cases hc2 : upper cmd = "SET"
    · rw [if_pos hc2]
      exact hSET_kinds st now _ h
    rw [if_neg hc2]
    by_cases hc3 : upper cmd = "GET"
    · rw [if_pos hc3]
      exact hGET_kinds st now _ h
    rw [if_neg hc3]
    by_cases hc4 : upper cmd = "DEL"
    · rw [if_pos hc4]
      exact hDEL_kinds st _ h
    rw [if_neg hc4]
    by_cases hc5 : upper cmd = "EXPIRE"
    · rw [if_pos hc5]
      exact hEXPIRE_kinds st now _ h
    rw [if_neg hc5]
    by_cases hc6 : upper cmd = "TTL"
    · rw [if_pos hc6]
      exact hTTL_kinds st now _ h
    rw [if_neg hc6]
    by_cases hc7 : upper cmd = "PEXPIRE"
    · rw [if_pos hc7]
      exact hPEXPIRE_kinds st now _ h
    rw [if_neg hc7]
    by_cases hc8 : upper cmd = "PERSIST"
    · rw [if_pos hc8]
      exact hPERSIST_kinds st now _ h
    rw [if_neg hc8]
    by_cases hc9 : upper cmd = "EXISTS"
    · rw [if_pos hc9]
      exact hEXISTS_kinds st now _ h
    rw [if_neg hc9]
    by_cases hc10 : upper cmd = "HSET"
    · rw [if_pos hc10]
      exact hHSET_kinds st now _ h
    rw [if_neg hc10]
    by_cases hc11 : upper cmd = "HGET"
    · rw [if_pos hc11]
      exact hHGET_kinds st now _ h
    rw [if_neg hc11]
    by_cases hc12 : upper cmd = "HDEL"
    · rw [if_pos hc12]
      exact hHDEL_kinds st now _ h
    rw [if_neg hc12]
    by_cases hc13 : upper cmd = "HEXISTS"
    · rw [if_pos hc13]
      exact hHEXISTS_kinds st now _ h
    rw [if_neg hc13]
    by_cases hc14 : upper cmd = "HLEN"
    · rw [if_pos hc14]
      exact hHLEN_kinds st now _ h
    rw [if_neg hc14]
    by_cases hc15 : upper cmd = "HGETALL"
    · rw [if_pos hc15]
      exact hHGETALL_kinds st now _ h
    rw [if_neg hc15]
    by_cases hc16 : upper cmd = "TYPE"
    · rw [if_pos hc16]
      exact hTYPE_kinds st now _ h
    rw [if_neg hc16]
    by_cases hc17 : upper cmd = "MGET"
    · rw [if_pos hc17]
      exact hMGET_kinds st now _ h
    rw [if_neg hc17]
    by_cases hc18 : upper cmd = "HMGET"
    · rw [if_pos hc18]
      exact hHMGET_kinds st now _ h
    rw [if_neg hc18]
    by_cases hc19 : upper cmd = "MSET"
    · rw [if_pos hc19]
      exact hMSET_kinds st now _ h
    rw [if_neg hc19]
    exact h

theorem runStep_kinds (st : Shard) (s : Step) (h : KindsOk st) : KindsOk (runStep st s) := by
  cases s with
  | cmd now args => exact dispatch_kinds st now args h
  | tick now => exact kindsOk_sweep st now h

theorem runSteps_kinds : ∀ (steps : List Step) (st : Shard),
    KindsOk st → KindsOk (runSteps st steps)
  | [], _, h => h
  | s :: r, st, h => runSteps_kinds r _ (runStep_kinds st s h)

/-- C8: starting from the empty store, after any finite sequence of
dispatched commands and sweeper ticks, every key is populated in at most
one of the string map and the hash map — its observable type is exactly
one of None, String, Hash, never two kinds at once. -/
theorem kinds_exclusive_invariant (steps : List Step) :
    ∀ k, (runSteps emptyShard steps).map k = none ∨
      (runSteps emptyShard steps).hmap k = none :=
  runSteps_kinds steps emptyShard kindsOk_empty

/-! ## C6: RESP round trip -/

theorem ofDigitsLE_decRevAux : ∀ (fuel n : Nat), n ≤ fuel →
    ofDigitsLE (decRevAux fuel n) = n
  | 0, n, h => by
    have hn : n = 0 := Nat.le_zero.mp h
    subst hn
    rfl
  | fuel + 1, n, h => by
    by_cases hn : n = 0
    · subst hn
      rfl
    · have hlt : n / 10 ≤ fuel := by
        have := Nat.div_lt_self (Nat.pos_of_ne_zero hn) (by norm_num : 1 < 10)
        omega
      have ih := ofDigitsLE_decRevAux fuel (n / 10) hlt
      simp only [decRevAux, hn, if_false, ofDigitsLE, ih]
      omega

theorem decRevAux_lt_ten : ∀ (fuel n d : Nat), d ∈ decRevAux fuel n → d < 10
  | 0, _, _, h => by cases h
  | fuel + 1, n, d, h => by
    by_cases hn : n = 0
    · subst hn
      simp [decRevAux] at h
    · simp only [decRevAux, hn, if_false, List.mem_cons] at h
      rcases h with h | h
      · omega
      · exact decRevAux_lt_ten fuel (n / 10) d h

theorem bvAcc_ge : ∀ (l : List Nat) (a : Nat), a ≤ bvAcc l a
  | [], a => le_refl a
  | d :: l, a => le_trans (by omega : a ≤ a * 10 + d) (bvAcc_ge l (a * 10 + d))

theorem bvAcc_append : ∀ (l1 l2 : List Nat) (a : Nat),
    bvAcc (l1 ++ l2) a = bvAcc l2 (bvAcc l1 a)
  | [], _, _ => rfl
  | d :: l1, l2, a => bvAcc_append l1 l2 (a * 10 + d)

theorem bvAcc_reverse : ∀ (l : List Nat) (a : Nat),
    bvAcc l.reverse a = a * 10 ^ l.length + ofDigitsLE l
  | [], a => by simp [bvAcc, ofDigitsLE]
  | d :: l, a => by
    have ih := bvAcc_reverse l a
    simp only [List.reverse_cons, bvAcc_append, ih, ofDigitsLE, List.length_cons]
    show (a * 10 ^ l.length + ofDigitsLE l) * 10 + d = a * 10 ^ (l.length + 1) +
      (d + 10 * ofDigitsLE l)
    ring

theorem digitsAcc_sound : ∀ (l : List Nat) (a : Nat), (∀ d ∈ l, d < 10) →
    bvAcc l a ≤ llmax → digitsAcc (l.map (· + 48)) a = some (bvAcc l a)
  | [], _, _, _ => rfl
  | d :: l, a, hd, hb => by
    have hd0 : d < 10 := hd d (List.mem_cons_self d l)
    have hrest : ∀ x ∈ l, x < 10 := fun x hx => hd x (List.mem_cons_of_mem d hx)
    have hb' : bvAcc l (a * 10 + d) ≤ llmax := hb
    have hle : a * 10 + d ≤ llmax := le_trans (bvAcc_ge l (a * 10 + d)) hb'
    simp only [List.map_cons, digitsAcc, Nat.add_sub_cancel]
    rw [if_pos (by omega : 48 ≤ d + 48 ∧ d + 48 ≤ 57)]
    have h2 : ¬ a > (llmax - d) / 10 := by
      rw [not_lt, Nat.le_div_iff_mul_le (by norm_num : (0 : Nat) < 10)]
      omega
    rw [if_neg h2]
    exact digitsAcc_sound l (a * 10 + d) hrest hb'

theorem decRevAux_ne_nil (fuel n : Nat) (hf : 0 < fuel) (hn : n ≠ 0) :
    decRevAux fuel n ≠ [] := by
  cases fuel with
  | zero => omega
  | succ f => simp [decRevAux, hn]

theorem natToDec_mem (n c : Nat) (h : c ∈ natToDec n) : 48 ≤ c ∧ c ≤ 57 := by
  unfold natToDec at h
  by_cases hn : n = 0
  · subst hn
    simp at h
    omega
  · simp only [hn, if_false, List.mem_map] at h
    obtain ⟨d, hd, hdc⟩ := h
    have := decRevAux_lt_ten n n d (List.mem_reverse.mp hd)
    omega

theorem natToDec_no_cr (n c : Nat) (h : c ∈ natToDec n) : c ≠ 13 := by
  have := natToDec_mem n c h
  omega

theorem digitsAcc_natToDec (n : Nat) (h : n ≤ llmax) :
    digitsAcc (natToDec n) 0 = some n := by
  by_cases hn : n = 0
  · subst hn
    rfl
  · have hdig : ∀ d ∈ (decRevAux n n).reverse, d < 10 := fun d hd =>
      decRevAux_lt_ten n n d (List.mem_reverse.mp hd)
    have hval : bvAcc (decRevAux n n).reverse 0 = n := by
      rw [bvAcc_reverse]
      simp [ofDigitsLE_decRevAux n n (le_refl n)]
    have := digitsAcc_sound (decRevAux n n).reverse 0 hdig (by rw [hval]; exact h)
    rw [hval] at this
    unfold natToDec
    simp only [hn, if_false]
    exact this

theorem parseLL_natToDec (n : Nat) (h : n ≤ llmax) :
    parseLL (natToDec n) = some (n : Int) := by
  have hacc := digitsAcc_natToDec n h
  have hne : natToDec n ≠ [] := by
    unfold natToDec
    by_cases hn : n = 0
    · simp [hn]
    · simp only [hn, if_false]
      intro hmap
      rw [List.map_eq_nil_iff, List.reverse_eq_nil_iff] at hmap
      exact decRevAux_ne_nil n n (Nat.pos_of_ne_zero hn) hn hmap
  obtain ⟨c, cs, hc⟩ := List.exists_cons_of_ne_nil hne
  have hcm : 48 ≤ c ∧ c ≤ 57 := natToDec_mem n c (by rw [hc]; exact List.mem_cons_self c cs)
  have hc45 : ¬ c = 45 := by
    intro heq
    rw [heq] at hcm
    exact absurd hcm (by decide)
  rw [hc] at hacc ⊢
  rw [parseLL, if_neg hc45, hacc]
  rfl

theorem splitCRLF_append : ∀ (l rest : List Byte), (∀ c ∈ l, c ≠ 13) →
    splitCRLF (l ++ 13 :: 10 :: rest) = some (l, rest)
  | [], rest, _ => by simp [splitCRLF]
  | c :: l', rest, h => by
    have hc : c ≠ 13 := h c (List.mem_cons_self c l')
    have ih := splitCRLF_append l' rest (fun d hd => h d (List.mem_cons_of_mem c hd))
    cases l' with
    | nil => simp [splitCRLF, hc]
    | cons c2 l'' =>
      simp only [List.cons_append] at ih ⊢
      rw [splitCRLF, if_neg (by simp [hc]), ih]
      rfl

theorem parseBulks_emit : ∀ (X : List (List Byte)) (off : Nat) (acc : List (List Byte)),
    (∀ s ∈ X, s.length ≤ llmax) →
    parseBulks ((X.map respBulkB).flatten) X.length off acc =
      RespOut.frame (acc.reverse ++ X) (off + ((X.map respBulkB).flatten).length)
  | [], off, acc, _ => by simp [parseBulks]
  | s :: X, off, acc, hs => by
    have hsl : s.length ≤ llmax := hs s (List.mem_cons_self s X)
    have hrest : ∀ t ∈ X, t.length ≤ llmax := fun t ht => hs t (List.mem_cons_of_mem s ht)
    have hsplit : splitCRLF ((natToDec s.length) ++
        13 :: 10 :: (s ++ 13 :: 10 :: (X.map respBulkB).flatten)) =
        some (natToDec s.length, s ++ 13 :: 10 :: (X.map respBulkB).flatten) :=
      splitCRLF_append _ _ (fun c hc => natToDec_no_cr s.length c hc)
    have hll := parseLL_natToDec s.length hsl
    have ih := parseBulks_emit X (off + 1 + (natToDec s.length).length + 2 + s.length + 2)
      (s :: acc) hrest
    simp only [List.map_cons, List.flatten_cons, List.length_cons]
    rw [show respBulkB s ++ (X.map respBulkB).flatten =
        36 :: ((natToDec s.length) ++
          13 :: 10 :: (s ++ 13 :: 10 :: (X.map respBulkB).flatten)) from by
      simp [respBulkB]]
    rw [parseBulks]
    rw [if_neg (by decide : ¬ ((36 : Byte) ≠ 36))]
    rw [hsplit]
    dsimp only
    rw [hll]
    dsimp only
    rw [if_neg (by omega : ¬ ((s.length : Int) = -1))]
    rw [if_neg (by omega : ¬ ((s.length : Int) < 0))]
    simp only [Int.toNat_natCast]
    rw [if_neg (by simp [List.length_append])]
    rw [List.drop_left, List.take_left]
    dsimp only
    rw [ih]
    congr 1
    · simp
    · simp [respBulkB, List.length_append]
      omega

/-- C6: parsing the byte string produced by the array-of-bulks emitter
yields exactly the argument list, with the whole emitted byte string
reported as consumed and no error — for every finite list of byte
strings whose lengths fit in a signed 64-bit integer (the overflow guard
of `parse_ll`, which every string materialized by the C++ process
satisfies). -/
theorem resp_roundtrip (X : List (List Byte)) (hlen : X.length ≤ llmax)
    (hs : ∀ s ∈ X, s.length ≤ llmax) :
    parseResp (respArrayB X) = RespOut.frame X (respArrayB X).length := by
  have hsplit := splitCRLF_append (natToDec X.length) ((X.map respBulkB).flatten)
    (fun c hc => natToDec_no_cr X.length c hc)
  have hll := parseLL_natToDec X.length hlen
  have hbulks := parseBulks_emit X (1 + (natToDec X.length).length + 2) [] hs
  rw [show respArrayB X =
      42 :: ((natToDec X.length) ++ 13 :: 10 :: (X.map respBulkB).flatten) from by
    simp [respArrayB]]
  rw [parseResp]
  rw [if_neg (by decide : ¬ ((42 : Byte) ≠ 42))]
  rw [hsplit]
  dsimp only
  rw [hll]
  dsimp only
  rw [if_neg (by omega : ¬ ((X.length : Int) < 0))]
  simp only [Int.toNat_natCast]
  rw [hbulks]
  congr 1
  simp [List.length_append]
  omega

/-- C6 (witness): the round trip at the concrete two-element list
`["hi", ""]` (bytes 104 105 and the empty string): the emitted frame is
18 bytes and parses back to the same arguments. -/
theorem resp_roundtrip_witness :
    parseResp (respArrayB [[104, 105], []]) = RespOut.frame [[104, 105], []] 18 := by
  have h := resp_roundtrip [[104, 105], []] (by decide) (by decide)
  rw [h]
  rfl

/-! ## C7: bytes to drop on a protocol error -/

/-- C7 (code bug): the claim (and spec) require every protocol error to
report a positive number of bytes to drop so the caller makes progress;
on an inline command — here the non-empty buffer `PING\x0d\x0a`, whose
first byte is not `*` — `parse_resp` reports an error with a drop count
of 0 (resp.cpp:58), and `Session::do_read` (session.cpp:30-33) then
erases 0 bytes and re-parses the same buffer, enqueueing `-ERR proto`
forever. -/
theorem inline_error_consumed_zero :
    parseResp [80, 73, 78, 71, 13, 10] =
      RespOut.protoError "protocol error: expected array" 0 := by
  rfl

/-! ## C9: per-connection reply ordering -/

/-- C9 (code bug): the session appends each reply to the write queue in
the order the pool completes dispatches (`enqueue_write` via the strand,
session.cpp:56-66) and drains the queue front-first; no sequence number
ties a reply to its request.  With two pipelined frames — PING then
ECHO hi — and a schedule in which the second dispatch completes first,
the socket receives the ECHO reply before the PING reply, violating the
claimed submission order. -/
theorem session_reply_order_violation :
    sessionWrites [respSimple "PONG", respBulk "hi"] [1, 0] =
      [respBulk "hi", respSimple "PONG"] ∧
    sessionWrites [respSimple "PONG", respBulk "hi"] [1, 0] ≠
      [respSimple "PONG", respBulk "hi"] := by
  constructor
  · rfl
  · decide

end RedisX
